import Mathlib

/-!
Verification of the caligra metadata-wiping tool (Go sources under internal/).

The development shallowly embeds the orchestration layer of the program:
the sanitization pipeline (WipeFile), the profile injector (InjectProfile),
the verifier (VerifyFile), the backup and copy staging helpers, and the
directory watcher dedupe logic.  External collaborators (exiftool, format
handlers, config loading, the clock and the random source) are modelled as
an environment of oracles; the file system is modelled as a map from paths
to file contents.  All definitions follow the Go source line by line.
-/

namespace Caligra

/-! Section: String helpers mirroring the Go standard library functions the source uses -/

/-- Lower-casing of a string, used to model strings.ToLower and
strings.EqualFold (EqualFold is modelled as equality after lower-casing). -/
def lowerStr (s : String) : String :=
  String.mk (s.data.map Char.toLower)

/-- Auxiliary scan for filepath.Ext: walks the reversed character list and
stops at the first dot, or at a path separator. -/
def extAux : List Char → List Char → List Char
  | [], _ => []
  | c :: rest, acc =>
    if c = '/' then []
    else if c = '.' then '.' :: acc
    else extAux rest (c :: acc)

/-- Model of Go filepath.Ext: the suffix beginning at the final dot in the
final slash-separated element of the path, empty if there is no dot. -/
def filepathExt (p : String) : String :=
  String.mk (extAux p.data.reverse [])

/-- Model of Go strings.TrimSuffix. -/
def trimSuffix (s suf : String) : String :=
  if suf.data.isSuffixOf s.data then
    String.mk (s.data.take (s.data.length - suf.data.length))
  else s

/-- Whether the string s begins with the string t, character by character. -/
def beginsWithChars : List Char → List Char → Bool
  | _, [] => true
  | [], _ :: _ => false
  | a :: l, b :: p => a == b && beginsWithChars l p

/-- Whether s begins with t (models strings.HasPrefix and String.startsWith). -/
def beginsWith (s t : String) : Bool :=
  beginsWithChars s.data t.data

/-! Section: util/fileops.go: GenerateOutputPath and KeysMatch -/

/-- GenerateOutputPath from internal/util/fileops.go: inserts the fixed
".volena" marker infix before the original extension. -/
def GenerateOutputPath (path : String) : String :=
  trimSuffix path (filepathExt path) ++ ".volena" ++ filepathExt path

/-- KeysMatch from internal/util/fileops.go: metadata keys match when they
are equal ignoring case, or both fall into one of the three alias classes
for author, location and date keys. -/
def KeysMatch (key1 key2 : String) : Bool :=
  let key1Lower := lowerStr key1
  let key2Lower := lowerStr key2
  (key1Lower == key2Lower) ||
  (["author", "creator", "artist", "by"].contains key1Lower &&
   ["author", "creator", "artist", "by"].contains key2Lower) ||
  (["location", "place", "where"].contains key1Lower &&
   ["location", "place", "where"].contains key2Lower) ||
  (["date", "created", "createdate", "when"].contains key1Lower &&
   ["date", "created", "createdate", "when"].contains key2Lower)

/-! Section: Data model from internal/wipe -/

/-- WipeOptions from internal/wipe/wipe.go. -/
structure WipeOptions where
  injectProfile : Bool
  customProfile : Option (List (String × String))
  createCopy : Bool
  keepBackup : Bool
  secureDelete : Bool
deriving Repr, DecidableEq

/-- DefaultWipeOptions from internal/wipe/wipe.go. -/
def DefaultWipeOptions : WipeOptions :=
  { injectProfile := true
    customProfile := none
    createCopy := true
    keepBackup := true
    secureDelete := false }

/-- VerificationResult from internal/wipe/verify.go.  RemainingFields and
MissingFields are Option lists: none models the Go nil slice that was never
assigned. -/
structure VerificationResult where
  success : Bool
  fileIntact : Bool
  metadataRemoved : Bool
  profileInjected : Bool
  remainingFields : Option (List String)
  missingFields : Option (List String)
  validationErrors : List String
deriving Repr, DecidableEq

/-- ProfileInjectionResult from internal/wipe/inject.go. -/
structure ProfileInjectionResult where
  success : Bool
  fieldsAdded : List String
  fieldsFailed : List String
  profile : List (String × String)
deriving Repr, DecidableEq

/-- WipeResult from internal/wipe/wipe.go. -/
structure WipeResult where
  success : Bool
  originalPath : String
  outputPath : String
  backupPath : String
  sensitiveData : List String
  wipeErrors : List String
  verification : Option VerificationResult
  injection : Option ProfileInjectionResult
deriving Repr, DecidableEq

/-- A metadata value from the exiftool JSON map: either a string (the case
the Go code type-asserts on) or some non-string value. -/
inductive MetaVal where
  | str (s : String)
  | nonStr
deriving Repr, DecidableEq

/-- The part of an AnalysisReport the pipeline consumes: the metadata map,
the detected sensitive field names, and the file format category. -/
structure AnalysisReport where
  metadata : List (String × MetaVal)
  sensitiveFields : List String
  format : String
deriving Repr, DecidableEq

/-! Section: File system and environment of external collaborators

The file system maps paths to file contents.  Handler operations
(exiftool, ffmpeg, identify, the config loader, the clock, the random
source) are external to the orchestration layer and are modelled as an
environment of oracles; each per-file oracle is a pure function of the
file content so that analysis and detection are deterministic per state. -/

/-- The file system: a map from paths to file contents. -/
def Fs : Type := String → Option String

/-- Update the file system at one path. -/
def fsUpdate (fs : Fs) (p : String) (c : String) : Fs :=
  fun q => if q = p then some c else fs q

/-- Remove one path from the file system. -/
def fsRemove (fs : Fs) (p : String) : Fs :=
  fun q => if q = p then none else fs q

/-- Environment of external collaborators. -/
structure Env where
  /-- Extra conditions of util.ValidatePath beyond existence
  (regular file, readable, writable). -/
  validateExtra : String → Bool
  /-- analyse.Analyze as a function of the file content (delegates to the
  external metadata tool): metadata, sensitive fields, format category. -/
  analyzeC : String → Except String AnalysisReport
  /-- analyse.DetectFile as a function of the file content: the format. -/
  detectC : String → Except String String
  /-- handler.WipeMetadata: given the format and the content, the new
  content or an error. -/
  wipeMetaC : String → String → Except String String
  /-- handler.InjectMetadata: given the format, the profile map and the
  content, the new content or an error. -/
  injectMetaC : String → List (String × String) → String → Except String String
  /-- handler.VerifyIntegrity: given the format and the content. -/
  integrityC : String → String → Bool
  /-- Whether the raw byte copy from src to dst succeeds (models the
  fallible file I O inside util.SafeCopy). -/
  copyOk : String → String → Bool
  /-- Whether util.SecureOverwriteFile succeeds on a path. -/
  secureOk : String → Bool
  /-- The outcome of config.LoadProfile. -/
  loadProfileR : Except String (List (String × String))
  /-- time.Now formatted as an ISO date, used for the now placeholder. -/
  nowDate : String
  /-- util.GenerateRandomID, used for the random placeholder. -/
  randomID : String

/-- util.ValidatePath: the file exists and the extra checks pass. -/
def validatePath (env : Env) (fs : Fs) (path : String) : Bool :=
  (fs path).isSome && env.validateExtra path

/-- analyse.Analyze on the current file system state. -/
def analyze (env : Env) (fs : Fs) (path : String) : Except String AnalysisReport :=
  match fs path with
  | none => .error "invalid file"
  | some c => env.analyzeC c

/-- analyse.DetectFile on the current file system state. -/
def detectFile (env : Env) (fs : Fs) (path : String) : Except String String :=
  match fs path with
  | none => .error "file type detection failed"
  | some c => env.detectC c

/-- formats.GetHandler from internal/formats/formats.go succeeds exactly
for the four registered format categories. -/
def getHandlerOk (format : String) : Bool :=
  format == "image" || format == "audio" || format == "video" || format == "text"

/-- handler.WipeMetadata applied at a path: rewrites the content at that
path only. -/
def wipeMetadataAt (env : Env) (format : String) (fs : Fs) (path : String) :
    Except String Fs :=
  match fs path with
  | none => .error "failed to read file"
  | some c =>
    match env.wipeMetaC format c with
    | .ok c2 => .ok (fsUpdate fs path c2)
    | .error e => .error e

/-- handler.InjectMetadata applied at a path: rewrites the content at that
path only. -/
def injectMetadataAt (env : Env) (format : String) (fs : Fs) (path : String)
    (profile : List (String × String)) : Except String Fs :=
  match fs path with
  | none => .error "failed to read file"
  | some c =>
    match env.injectMetaC format profile c with
    | .ok c2 => .ok (fsUpdate fs path c2)
    | .error e => .error e

/-- handler.VerifyIntegrity applied at a path. -/
def verifyIntegrityAt (env : Env) (format : String) (fs : Fs) (path : String) : Bool :=
  match fs path with
  | none => false
  | some c => env.integrityC format c

/-! Section: util/fileops.go: SafeCopy, CreateBackup; util/security.go disposal -/

/-- util.SafeCopy: opens the source, copies the bytes to the destination
and verifies the two content hashes match.  In the model the copy is exact,
so the post-copy hash equality check always passes when the raw copy
succeeded; fallible I O is the copyOk oracle. -/
def SafeCopy (env : Env) (fs : Fs) (src dst : String) : Except String Fs :=
  match fs src with
  | none => .error "failed to open source file"
  | some c =>
    if env.copyOk src dst then .ok (fsUpdate fs dst c)
    else .error "failed to create destination file"

/-- util.CreateBackup: if the .bak sibling already exists it is returned
as-is without copying; otherwise the original is copied to it via
SafeCopy. -/
def CreateBackup (env : Env) (fs : Fs) (path : String) :
    Except String (String × Fs) :=
  let backupPath := path ++ ".bak"
  if (fs backupPath).isSome then .ok (backupPath, fs)
  else
    match SafeCopy env fs path backupPath with
    | .error _ => .error "failed to create backup"
    | .ok fs2 => .ok (backupPath, fs2)

/-- util.SecureOverwriteFile: multi-pass overwrite then deletion; modelled
as removing the path when the secure overwrite oracle succeeds. -/
def SecureOverwriteFile (env : Env) (fs : Fs) (path : String) : Except String Fs :=
  match fs path with
  | none => .error "failed to stat file for secure overwrite"
  | some _ =>
    if env.secureOk path then .ok (fsRemove fs path)
    else .error "secure overwrite failed"

/-- util.RemoveFile: os.Remove, failing when the path does not exist. -/
def RemoveFile (fs : Fs) (path : String) : Except String Fs :=
  match fs path with
  | none => .error "remove failed"
  | some _ => .ok (fsRemove fs path)

/-! Section: internal/wipe/verify.go -/

/-- The inner loop of verifyProfileFields: whether some metadata entry has
a string value, a key matching the profile key under KeysMatch, and a value
equal to the expected value. -/
def profileFieldFound (metadata : List (String × MetaVal))
    (key expectedValue : String) : Bool :=
  metadata.any fun mv =>
    match mv.2 with
    | .str metaValueStr => KeysMatch mv.1 key && metaValueStr == expectedValue
    | .nonStr => false

/-- The loop body of verifyProfileFields: empty expected values are
skipped, found fields leave the missing list unchanged, everything else is
appended to the missing list. -/
def verifyStep (metadata : List (String × MetaVal)) (missing : List String)
    (kv : String × String) : List String :=
  if kv.2 == "" then missing
  else if profileFieldFound metadata kv.1 kv.2 then missing
  else missing ++ [kv.1]

/-- verifyProfileFields from internal/wipe/verify.go: for each non-empty
profile field, check whether it exists in the metadata; collect the keys
that are missing. -/
def verifyProfileFields (metadata : List (String × MetaVal))
    (profile : List (String × String)) : List String :=
  profile.foldl (verifyStep metadata) []

/-- The zero VerificationResult that VerifyFile initializes. -/
def initVerificationResult : VerificationResult :=
  { success := false
    fileIntact := false
    metadataRemoved := false
    profileInjected := false
    remainingFields := none
    missingFields := none
    validationErrors := [] }

/-- VerifyFile from internal/wipe/verify.go. -/
def VerifyFile (env : Env) (fs : Fs) (path : String)
    (expectedProfile : Option (List (String × String))) :
    VerificationResult × Option String :=
  let result := initVerificationResult
  if (fs path).isNone then (result, some "file not found")
  else
    match detectFile env fs path with
    | .error _ => (result, some "file type detection failed")
    | .ok format =>
      if !(getHandlerOk format) then (result, some "no handler for format")
      else
        let result := { result with fileIntact := verifyIntegrityAt env format fs path }
        if !result.fileIntact then
          ({ result with
              validationErrors := result.validationErrors ++ ["File integrity check failed"] },
           none)
        else
          match analyze env fs path with
          | .error _ => (result, some "failed to verify metadata")
          | .ok report =>
            let result := { result with
              remainingFields := some report.sensitiveFields
              metadataRemoved := report.sensitiveFields.length == 0 }
            let result :=
              if !result.metadataRemoved then
                { result with
                    validationErrors := result.validationErrors ++
                      ["Found sensitive fields that should have been removed"] }
              else result
            let result :=
              match expectedProfile with
              | some prof =>
                let missing := verifyProfileFields report.metadata prof
                let r2 := { result with
                  missingFields := some missing
                  profileInjected := missing.length == 0 }
                if !r2.profileInjected then
                  { r2 with
                      validationErrors := r2.validationErrors ++
                        ["Profile injection incomplete"] }
                else r2
              | none => { result with profileInjected := true }
            ({ result with
                success := result.fileIntact && result.metadataRemoved &&
                  result.profileInjected },
             none)

/-! Section: internal/wipe/inject.go -/

/-- config.GetDefaultProfile from internal/config/profile.go. -/
def GetDefaultProfile : List (String × String) :=
  [("author", "nynynn"), ("software", "liberty/1.0"), ("created", "2000-01-01"),
   ("organization", "none"), ("location", "unknown"), ("comment", "sanitized")]

/-- processDynamicFields from internal/wipe/inject.go: a literal now
placeholder becomes the current date, a literal random placeholder becomes
a fresh random identifier, all other values pass through unchanged. -/
def processDynamicFields (env : Env) (profile : List (String × String)) :
    List (String × String) :=
  profile.map fun kv =>
    if kv.2 == "\x7b\x7bnow\x7d\x7d" then (kv.1, env.nowDate)
    else if kv.2 == "\x7b\x7brandom\x7d\x7d" then (kv.1, env.randomID)
    else kv

/-- InjectProfile from internal/wipe/inject.go. -/
def InjectProfile (env : Env) (fs : Fs) (path : String)
    (customProfile : Option (List (String × String))) :
    Fs × ProfileInjectionResult × Option String :=
  let profile :=
    match customProfile with
    | some p => p
    | none =>
      match env.loadProfileR with
      | .ok p => p
      | .error _ => GetDefaultProfile
  let result : ProfileInjectionResult :=
    { success := false, fieldsAdded := [], fieldsFailed := [], profile := profile }
  match detectFile env fs path with
  | .error _ => (fs, result, some "file type detection failed")
  | .ok format =>
    if !(getHandlerOk format) then (fs, result, some "no handler for format")
    else
      let profile2 := processDynamicFields env profile
      match injectMetadataAt env format fs path profile2 with
      | .error _ => (fs, result, some "metadata injection failed")
      | .ok fs2 =>
        let ver := VerifyFile env fs2 path (some profile2)
        (fs2,
         match ver.2 with
         | some _ => (result, some "failed to verify injection")
         | none =>
           let missing := (ver.1.missingFields).getD []
           let classified := profile2.foldl
             (fun (acc : List String × List String) kv =>
               if missing.contains kv.1 then (acc.1, acc.2 ++ [kv.1])
               else (acc.1 ++ [kv.1], acc.2))
             ([], [])
           ({ result with
                success := ver.1.profileInjected
                fieldsAdded := classified.1
                fieldsFailed := classified.2 },
            none))

/-! Section: internal/wipe/wipe.go -/

/-- The WipeResult WipeFile initializes. -/
def initWipeResult (path : String) : WipeResult :=
  { success := false
    originalPath := path
    outputPath := ""
    backupPath := ""
    sensitiveData := []
    wipeErrors := []
    verification := none
    injection := none }

/-- The cleanup stage of WipeFile (wipe.go lines 127 to 135): only when not
in copy mode, backups are not kept, a backup path exists and no wipe error
was recorded, the backup is disposed of (secure overwrite then delete, or
plain delete); the Go code discards the disposal error with a blank
assignment and clears BackupPath unconditionally inside the branch. -/
def cleanupStage (env : Env) (options : WipeOptions) (fs : Fs)
    (result : WipeResult) : Fs × WipeResult :=
  if !options.createCopy && !options.keepBackup &&
      result.backupPath != "" && result.wipeErrors.length == 0 then
    let fs2 :=
      if options.secureDelete then
        match SecureOverwriteFile env fs result.backupPath with
        | .ok f => f
        | .error _ => fs
      else
        match RemoveFile fs result.backupPath with
        | .ok f => f
        | .error _ => fs
    (fs2, { result with backupPath := "" })
  else (fs, result)

/-- Stages 5 to 9 of WipeFile (wipe, inject, verify, cleanup, success):
after the staging stage the pipeline records failures in WipeErrors and
never aborts, finishing with the derived Success assignment. -/
def wipeFinish (env : Env) (options : WipeOptions) (fs : Fs)
    (result : WipeResult) (format workingPath : String) :
    Fs × WipeResult × Option String :=
  let step1 : Fs × WipeResult :=
    match wipeMetadataAt env format fs workingPath with
    | .ok f => (f, result)
    | .error _ =>
      (fs, { result with
               wipeErrors := result.wipeErrors ++ ["[X] Metadata wipe failed"] })
  let step2 : Fs × WipeResult :=
    if options.injectProfile && step1.2.wipeErrors.length == 0 then
      let inj := InjectProfile env step1.1 workingPath options.customProfile
      (inj.1,
       match inj.2.2 with
       | some _ =>
         { step1.2 with
             wipeErrors := step1.2.wipeErrors ++ ["[X] Profile injection failed"]
             injection := some inj.2.1 }
       | none => { step1.2 with injection := some inj.2.1 })
    else step1
  let ver := VerifyFile env step2.1 workingPath options.customProfile
  let step3 : WipeResult :=
    match ver.2 with
    | some _ =>
      { step2.2 with
          wipeErrors := step2.2.wipeErrors ++ ["[X] Verification failed"]
          verification := some ver.1 }
    | none => { step2.2 with verification := some ver.1 }
  let step4 := cleanupStage env options step2.1 step3
  (step4.1,
   { step4.2 with
       success := step4.2.wipeErrors.length == 0 &&
         (match step4.2.verification with
          | none => true
          | some v => v.success) },
   none)

/-- WipeFile from internal/wipe/wipe.go. -/
def WipeFile (env : Env) (fs : Fs) (path : String)
    (optionsIn : Option WipeOptions) : Fs × WipeResult × Option String :=
  let options := optionsIn.getD DefaultWipeOptions
  let result := initWipeResult path
  if !(validatePath env fs path) then (fs, result, some "invalid input file")
  else
    match analyze env fs path with
    | .error _ => (fs, result, some "failed to analyze file")
    | .ok report =>
      let result := { result with sensitiveData := report.sensitiveFields }
      if !(getHandlerOk report.format) then (fs, result, some "no handler for format")
      else
        if options.createCopy then
          let outputPath := GenerateOutputPath path
          let result := { result with outputPath := outputPath }
          match SafeCopy env fs path outputPath with
          | .error _ => (fs, result, some "failed to create output file")
          | .ok fs1 => wipeFinish env options fs1 result report.format outputPath
        else
          match CreateBackup env fs path with
          | .error _ => (fs, result, some "failed to create backup")
          | .ok bp =>
            wipeFinish env options bp.2 { result with backupPath := bp.1 }
              report.format path

/-! Section: internal/daemon/watcher.go

Time is modelled in nanoseconds, matching Go durations; time.Since is
modelled as truncated subtraction from the current instant. -/

/-- One nanosecond-denominated second (time.Second). -/
def timeSecond : Nat := 1000000000

/-- time.Minute. -/
def timeMinute : Nat := 60 * timeSecond

/-- WatchOptions from internal/daemon/watcher.go. -/
structure WatchOptions where
  extensions : List String
  excludeDirs : List String
  minFileAge : Nat
  recursive : Bool
deriving Repr, DecidableEq

/-- The extension check at the top of shouldProcessFile: with a non-empty
allow-list, the lower-cased extension must match one of the allowed
extensions lower-cased. -/
def extFilterPass (options : WatchOptions) (path : String) : Bool :=
  let ext := lowerStr (filepathExt path)
  !(decide (0 < options.extensions.length) &&
    !(options.extensions.any fun allowedExt => ext == lowerStr allowedExt))

/-- The minimum-file-age check of shouldProcessFile: with a configured
minimum age, a stat failure or a modification time younger than the
minimum rejects the file. -/
def ageFilterPass (options : WatchOptions) (statMod : String → Option Nat)
    (path : String) (now : Nat) : Bool :=
  !(decide (0 < options.minFileAge) &&
    (match statMod path with
     | none => true
     | some modTime => decide (now - modTime < options.minFileAge)))

/-- The dedupe check of shouldProcessFile: a path dispatched less than one
minute ago is rejected. -/
def dedupePass (processed : String → Option Nat) (path : String) (now : Nat) : Bool :=
  match processed path with
  | some lastProcessed => !(decide (now - lastProcessed < timeMinute))
  | none => true

/-- shouldProcessFile from internal/daemon/watcher.go: the extension
filter, then the minimum-age filter, then the dedupe window. -/
def shouldProcessFile (options : WatchOptions) (statMod : String → Option Nat)
    (processed : String → Option Nat) (path : String) (now : Nat) : Bool :=
  extFilterPass options path &&
  ageFilterPass options statMod path now &&
  dedupePass processed path now

/-- markProcessed from internal/daemon/watcher.go: records the dispatch
timestamp for the path. -/
def markProcessed (processed : String → Option Nat) (path : String) (now : Nat) :
    String → Option Nat :=
  fun q => if q = path then some now else processed q

/-- The spawned per-event unit of work in processEvents: invoke the
handler, log the outcome, and call markProcessed unconditionally, whether
or not the handler failed (markProcessed sits after the if-else on the
handler error in the Go source). -/
def dispatchUnit (handler : String → Option String)
    (processed : String → Option Nat) (path : String) (now : Nat) :
    (String → Option Nat) × String :=
  let logLine :=
    match handler path with
    | some _ => "[X] Failed to process file"
    | none => "Successfully processed file"
  (markProcessed processed path now, logLine)

/-! Section: The profile-field presence check as the specification words it

Modelled from the spec, for comparison with verifyProfileFields: the spec
says values of date-class keys are compared after normalizing the colon
and dash separators to a common form, accepting a prefix match, and values
of every other key class are compared case-insensitively. -/

/-- Modelled from the spec: normalize the colon and dash separators of a
date value to a common form (every colon becomes a dash). -/
def specNormalizeDate (s : String) : String :=
  String.mk (s.data.map fun c => if c = ':' then '-' else c)

/-- Modelled from the spec: value comparison per key class; date-class
keys use normalized comparison with an accepted prefix match, all other
keys use exact case-insensitive equality. -/
def specValueMatches (key metaValue expectedValue : String) : Bool :=
  if ["date", "created", "createdate", "when"].contains (lowerStr key) then
    let nv := specNormalizeDate metaValue
    let np := specNormalizeDate expectedValue
    nv == np || beginsWith nv np
  else lowerStr metaValue == lowerStr expectedValue

/-- Modelled from the spec: the profile-field presence check as the
specification describes it, with the class-dependent value comparison. -/
def specVerifyProfileFields (metadata : List (String × MetaVal))
    (profile : List (String × String)) : List String :=
  profile.foldl
    (fun missing kv =>
      if kv.2 == "" then missing
      else if metadata.any (fun mv =>
          match mv.2 with
          | .str s => KeysMatch mv.1 kv.1 && specValueMatches kv.1 s kv.2
          | .nonStr => false) then missing
      else missing ++ [kv.1])
    []

/-! Section: Concrete fixtures used by witnesses and counterexamples -/

/-- An environment in which every external collaborator succeeds: analysis
reports one already-anonymized author field and no sensitive fields, both
handler operations keep the content unchanged, integrity always holds, raw
copies succeed, and secure overwrite fails. -/
def envC : Env :=
  { validateExtra := fun _ => true
    analyzeC := fun _ => .ok ⟨[("author", MetaVal.str "anon")], [], "image"⟩
    detectC := fun _ => .ok "image"
    wipeMetaC := fun _ c => .ok c
    injectMetaC := fun _ _ c => .ok c
    integrityC := fun _ _ => true
    copyOk := fun _ _ => true
    secureOk := fun _ => false
    loadProfileR := .ok [("author", "anon")]
    nowDate := "2026-10-11"
    randomID := "caligra-ab12cd34"
    : Env }

/-- Like envC but analysis reports a created date matching the resolved
dynamic profile of env7. -/
def env7 : Env :=
  { envC with analyzeC := fun _ => .ok ⟨[("created", MetaVal.str "2026-10-11")], [], "image"⟩ }

/-- Like envC but the integrity check always fails. -/
def env8 : Env :=
  { envC with integrityC := fun _ _ => false }

/-- A file system holding one image file. -/
def fsW : Fs :=
  fun p => if p = "a.jpg" then some "CONTENT" else none

/-- A file system holding an original and a stale pre-existing backup with
different content. -/
def fs5 : Fs :=
  fun p =>
    if p = "f.jpg" then some "AAAA"
    else if p = "f.jpg.bak" then some "BBBB"
    else none

/-- A file system holding only the original, no backup. -/
def fs6 : Fs :=
  fun p => if p = "f.jpg" then some "AAAA" else none

/-! Section: Structural lemmas about the pipeline -/

/-- wipeFinish never returns an error: stages 5 to 9 record failures in
WipeErrors and continue. -/
theorem wipeFinish_err_none (env : Env) (options : WipeOptions) (fs : Fs)
    (result : WipeResult) (format workingPath : String) :
    (wipeFinish env options fs result format workingPath).2.2 = none := rfl

/-- The success field that wipeFinish returns is exactly the derived
predicate over the WipeErrors and Verification fields it returns. -/
theorem wipeFinish_success_eq (env : Env) (options : WipeOptions) (fs : Fs)
    (result : WipeResult) (format workingPath : String) :
    (wipeFinish env options fs result format workingPath).2.1.success =
      ((wipeFinish env options fs result format workingPath).2.1.wipeErrors.length == 0 &&
       (match (wipeFinish env options fs result format workingPath).2.1.verification with
        | none => true
        | some v => v.success)) := rfl

/-- Every run of WipeFile either aborts during stages 1 to 4, returning the
unchanged file system, a partial result with a false success flag and an
error, or reaches wipeFinish. -/
theorem wipeFile_shape (env : Env) (fs : Fs) (path : String)
    (optionsIn : Option WipeOptions) :
    (∃ r e, WipeFile env fs path optionsIn = (fs, r, some e) ∧ r.success = false) ∨
    (∃ o fs1 r1 m w, WipeFile env fs path optionsIn = wipeFinish env o fs1 r1 m w) := by
  simp only [WipeFile]
  repeat' split
  all_goals first
    | exact Or.inl ⟨_, _, rfl, rfl⟩
    | exact Or.inr ⟨_, _, _, _, _, rfl⟩

/-- Updating one path leaves every other path unchanged. -/
theorem fsUpdate_ne (fs : Fs) (p c : String) (q : String) (hq : q ≠ p) :
    fsUpdate fs p c q = fs q := by
  simp [fsUpdate, hq]

/-- A successful SafeCopy changes the file system only at the destination. -/
theorem SafeCopy_frame (env : Env) (fs : Fs) (src dst : String) (fs2 : Fs)
    (h : SafeCopy env fs src dst = .ok fs2) (q : String) (hq : q ≠ dst) :
    fs2 q = fs q := by
  unfold SafeCopy at h
  split at h
  · cases h
  · split at h
    · simp only [Except.ok.injEq] at h
      subst h
      exact fsUpdate_ne fs dst _ q hq
    · cases h

/-- A successful metadata wipe changes the file system only at the path it
was given. -/
theorem wipeMetadataAt_frame (env : Env) (format : String) (fs : Fs)
    (path : String) (fs2 : Fs) (h : wipeMetadataAt env format fs path = .ok fs2)
    (q : String) (hq : q ≠ path) : fs2 q = fs q := by
  unfold wipeMetadataAt at h
  split at h
  · cases h
  · split at h
    · simp only [Except.ok.injEq] at h
      subst h
      exact fsUpdate_ne fs path _ q hq
    · cases h

/-- A successful metadata injection changes the file system only at the
path it was given. -/
theorem injectMetadataAt_frame (env : Env) (format : String) (fs : Fs)
    (path : String) (profile : List (String × String)) (fs2 : Fs)
    (h : injectMetadataAt env format fs path profile = .ok fs2)
    (q : String) (hq : q ≠ path) : fs2 q = fs q := by
  unfold injectMetadataAt at h
  split at h
  · cases h
  · split at h
    · simp only [Except.ok.injEq] at h
      subst h
      exact fsUpdate_ne fs path _ q hq
    · cases h

/-- InjectProfile changes the file system only at the path it was given. -/
theorem injectProfile_frame (env : Env) (fs : Fs) (path : String)
    (customProfile : Option (List (String × String))) (q : String)
    (hq : q ≠ path) :
    (InjectProfile env fs path customProfile).1 q = fs q := by
  simp only [InjectProfile]
  repeat'
    first
      | rfl
      | exact injectMetadataAt_frame _ _ _ _ _ _ (by assumption) q hq
      | split

/-- With createCopy set, the cleanup stage is skipped entirely. -/
theorem cleanupStage_createCopy (env : Env) (options : WipeOptions)
    (hcc : options.createCopy = true) (fs : Fs) (result : WipeResult) :
    cleanupStage env options fs result = (fs, result) := by
  unfold cleanupStage
  rw [hcc]
  simp

/-- With createCopy set, stages 5 to 9 change the file system only at the
working path. -/
theorem wipeFinish_frame (env : Env) (options : WipeOptions) (fs : Fs)
    (result : WipeResult) (format workingPath : String)
    (hcc : options.createCopy = true) (q : String) (hq : q ≠ workingPath) :
    (wipeFinish env options fs result format workingPath).1 q = fs q := by
  simp only [wipeFinish, cleanupStage_createCopy env options hcc]
  repeat'
    first
      | rfl
      | exact wipeMetadataAt_frame _ _ _ _ _ (by assumption) q hq
      | (refine Eq.trans (injectProfile_frame env _ workingPath options.customProfile q hq) ?_
         first
           | rfl
           | exact wipeMetadataAt_frame _ _ _ _ _ (by assumption) q hq)
      | split

/-- Trimming a suffix removes at most the length of the suffix. -/
theorem trimSuffix_length_ge (s suf : String) :
    s.length ≤ (trimSuffix s suf).length + suf.length := by
  unfold trimSuffix
  split
  · show s.data.length ≤ (s.data.take (s.data.length - suf.data.length)).length + suf.data.length
    rw [List.length_take]
    omega
  · exact Nat.le_add_right ..

/-- The generated output path is strictly longer than the input path: the
seven-character marker infix is always inserted. -/
theorem generateOutputPath_ne (p : String) : p ≠ GenerateOutputPath p := by
  intro h
  have hl : p.length = (GenerateOutputPath p).length := congrArg String.length h
  have h2 : (GenerateOutputPath p).length =
      (trimSuffix p (filepathExt p)).length + 7 + (filepathExt p).length := by
    unfold GenerateOutputPath
    rw [String.length_append, String.length_append]
    rfl
  have h3 := trimSuffix_length_ge p (filepathExt p)
  omega

/-- Appending the backup suffix always changes the path. -/
theorem ne_append_bak (p : String) : p ≠ p ++ ".bak" := by
  intro h
  have hl : p.length = (p ++ ".bak").length := congrArg String.length h
  rw [String.length_append] at hl
  have h4 : (".bak" : String).length = 4 := rfl
  omega

/-! Section: Claim theorems -/

/-- Claim C1: for every WipeFile invocation whose outcome is a WipeResult
rather than an error (the returned error is none), the Success field
equals the derived predicate, WipeErrors empty and Verification nil or
successful, in both directions; and on every error-returning path Success
is false, so Success is never true by any other path. -/
theorem C1_wipeFile_success_derived (env : Env) (fs : Fs) (path : String)
    (optionsIn : Option WipeOptions) :
    ((WipeFile env fs path optionsIn).2.2 = none →
      (WipeFile env fs path optionsIn).2.1.success =
        ((WipeFile env fs path optionsIn).2.1.wipeErrors.length == 0 &&
         (match (WipeFile env fs path optionsIn).2.1.verification with
          | none => true
          | some v => v.success))) ∧
    (∀ e, (WipeFile env fs path optionsIn).2.2 = some e →
      (WipeFile env fs path optionsIn).2.1.success = false) := by
  rcases wipeFile_shape env fs path optionsIn with ⟨r, e, heq, hsf⟩ | ⟨o, fs1, r1, m, w, heq⟩
  · constructor
    · intro h
      rw [heq] at h
      exact absurd h (by simp)
    · intro e2 _
      rw [heq]
      exact hsf
  · constructor
    · intro _
      rw [heq]
      exact wipeFinish_success_eq env o fs1 r1 m w
    · intro e2 h
      rw [heq, wipeFinish_err_none] at h
      exact Option.noConfusion h

/-- Witness for C1 at a concrete successful run. -/
theorem C1_wipeFile_success_derived_witness :
    (WipeFile envC fsW "a.jpg" none).2.1.success =
      ((WipeFile envC fsW "a.jpg" none).2.1.wipeErrors.length == 0 &&
       (match (WipeFile envC fsW "a.jpg" none).2.1.verification with
        | none => true
        | some v => v.success)) :=
  (C1_wipeFile_success_derived envC fsW "a.jpg" none).1 rfl

/-- Options with createCopy set and profile injection turned off, used as
a concrete input. -/
def optsCopy : WipeOptions :=
  { injectProfile := false
    customProfile := none
    createCopy := true
    keepBackup := true
    secureDelete := false }

/-- Claim C2: with CreateCopy set, WipeFile never modifies the content
stored at the original path: staging copies to the sibling marker path,
which always differs from the original, and every later stage operates on
that copy. -/
theorem C2_wipeFile_createCopy_preserves_original (env : Env) (fs : Fs)
    (path : String) (opts : WipeOptions) (hcc : opts.createCopy = true) :
    (WipeFile env fs path (some opts)).1 path = fs path := by
  simp only [WipeFile, Option.getD]
  repeat'
    first
      | rfl
      | exact absurd hcc (by assumption)
      | exact Eq.trans
          (wipeFinish_frame env opts _ _ _ _ hcc path (generateOutputPath_ne path))
          (SafeCopy_frame env fs path _ _ (by assumption) path (generateOutputPath_ne path))
      | split

/-- Witness for C2 at a concrete input. -/
theorem C2_wipeFile_createCopy_preserves_original_witness :
    (WipeFile envC fsW "a.jpg" (some optsCopy)).1 "a.jpg" = fsW "a.jpg" :=
  C2_wipeFile_createCopy_preserves_original envC fsW "a.jpg" optsCopy rfl

/-- Claim C10: calling WipeFile with no options behaves identically to
calling it with the default options (InjectProfile true, CustomProfile
nil, CreateCopy true, KeepBackup true, SecureDelete false); a nil options
argument is never itself an error. -/
theorem C10_wipeFile_nil_options_default (env : Env) (fs : Fs) (path : String) :
    WipeFile env fs path none = WipeFile env fs path (some DefaultWipeOptions) := rfl

/-- A foldl whose step appends to the accumulator factors the initial
accumulator out front. -/
theorem foldl_acc_out (f : List String → (String × String) → List String)
    (hf : ∀ acc kv, f acc kv = acc ++ f [] kv) :
    ∀ (profile : List (String × String)) (acc : List String),
      profile.foldl f acc = acc ++ profile.foldl f [] := by
  intro profile
  induction profile with
  | nil => intro acc; simp
  | cons kv t ih =>
    intro acc
    simp only [List.foldl_cons]
    rw [ih (f acc kv), hf acc kv, ih (f [] kv), List.append_assoc]

/-- The step of verifyProfileFields only ever appends to the accumulator. -/
theorem verifyStep_acc (metadata : List (String × MetaVal)) :
    ∀ (acc : List String) (kv : String × String),
      verifyStep metadata acc kv = acc ++ verifyStep metadata [] kv := by
  intro acc kv
  unfold verifyStep
  split
  · simp
  · split
    · simp
    · rfl

/-- Claim C3 amended: in the profile-field presence check, a non-empty
expected field is counted present exactly when some metadata entry has a
string value, a key matching the expected key under the KeysMatch alias
classes (case-insensitive on keys), and a value equal to the expected
value by exact case-sensitive string equality; no date normalization and
no prefix matching is applied to values of any key class, and value
comparison is not case-insensitive. -/
theorem C3_verifyProfileFields_exact_equality (metadata : List (String × MetaVal))
    (profile : List (String × String)) :
    verifyProfileFields metadata profile =
      (profile.filter fun kv =>
        !(kv.2 == "") && !(profileFieldFound metadata kv.1 kv.2)).map Prod.fst := by
  induction profile with
  | nil => rfl
  | cons kv t ih =>
    simp only [verifyProfileFields, List.foldl_cons] at ih ⊢
    rw [foldl_acc_out (verifyStep metadata) (verifyStep_acc metadata) t _]
    by_cases h1 : (kv.2 == "") = true
    · simp [verifyStep, h1, ih]
    · by_cases h2 : profileFieldFound metadata kv.1 kv.2 = true
      · simp [verifyStep, h1, h2, ih]
      · simp [verifyStep, h1, h2, ih]

/-- Counterexample to Claim C3 as stated: for the date-class key created,
the metadata value 2024-01-01 00:00:00 against the expected value
2024-01-01 is accepted under the comparison the claim describes
(normalized separators, prefix match accepted), but the code marks the
field missing, because verifyProfileFields compares values by exact
case-sensitive equality for every key class. -/
theorem C3_verifyProfileFields_counterexample :
    specVerifyProfileFields [("created", MetaVal.str "2024-01-01 00:00:00")]
        [("created", "2024-01-01")] = [] ∧
    verifyProfileFields [("created", MetaVal.str "2024-01-01 00:00:00")]
        [("created", "2024-01-01")] = ["created"] :=
  ⟨rfl, rfl⟩

/-- Claim C4: for a path that passes the extension filter (and whose
minimum-age check passes, so that the dedupe check is what decides), a
second create or write event arriving less than 60 seconds after the
recorded dispatch timestamp is rejected by shouldProcessFile, so no second
dispatch occurs; one arriving 61 or more seconds after it is accepted, so
a second dispatch occurs; and the per-event unit records the dispatch
timestamp unconditionally, also when the handler fails. -/
theorem C4_watcher_dedupe_window (options : WatchOptions)
    (statMod : String → Option Nat) (processed : String → Option Nat)
    (path : String) (t1 now2 : Nat)
    (hext : extFilterPass options path = true)
    (hage : ageFilterPass options statMod path now2 = true)
    (hrec : processed path = some t1) :
    (now2 - t1 < 60 * timeSecond →
      shouldProcessFile options statMod processed path now2 = false) ∧
    (61 * timeSecond ≤ now2 - t1 →
      shouldProcessFile options statMod processed path now2 = true) ∧
    (∀ (handler : String → Option String) (tD : Nat),
      (dispatchUnit handler processed path tD).1 path = some tD) := by
  refine ⟨?_, ?_, ?_⟩
  · intro hlt
    have h : now2 - t1 < timeMinute := by
      unfold timeMinute
      exact hlt
    unfold shouldProcessFile dedupePass
    rw [hext, hage, hrec]
    simp [h]
  · intro hge
    have h : ¬(now2 - t1 < timeMinute) := by
      unfold timeMinute timeSecond at *
      omega
    unfold shouldProcessFile dedupePass
    rw [hext, hage, hrec]
    simp [h]
  · intro handler tD
    unfold dispatchUnit markProcessed
    simp

/-- Watch options with one allowed extension and no minimum age. -/
def watchOptsW : WatchOptions :=
  { extensions := [".jpg"], excludeDirs := [], minFileAge := 0, recursive := true }

/-- A dedupe cache holding one dispatch record. -/
def processedW : String → Option Nat :=
  fun p => if p = "a.jpg" then some (100 * timeSecond) else none

/-- Witness for C4: the same path is rejected 30 seconds after its
recorded dispatch and accepted 61 seconds after it, and the failing
handler still gets its timestamp recorded. -/
theorem C4_watcher_dedupe_window_witness :
    shouldProcessFile watchOptsW (fun _ => none) processedW "a.jpg"
      (130 * timeSecond) = false ∧
    shouldProcessFile watchOptsW (fun _ => none) processedW "a.jpg"
      (161 * timeSecond) = true ∧
    (dispatchUnit (fun _ => some "handler failed") processedW "a.jpg"
      (161 * timeSecond)).1 "a.jpg" = some (161 * timeSecond) :=
  ⟨(C4_watcher_dedupe_window watchOptsW (fun _ => none) processedW "a.jpg"
      (100 * timeSecond) (130 * timeSecond) (by decide) (by decide) (by decide)).1
      (by decide),
   (C4_watcher_dedupe_window watchOptsW (fun _ => none) processedW "a.jpg"
      (100 * timeSecond) (161 * timeSecond) (by decide) (by decide) (by decide)).2.1
      (by decide),
   (C4_watcher_dedupe_window watchOptsW (fun _ => none) processedW "a.jpg"
      (100 * timeSecond) (161 * timeSecond) (by decide) (by decide) (by decide)).2.2
      (fun _ => some "handler failed") (161 * timeSecond)⟩

/-- In-place options that keep the backup and skip injection. -/
def optsInPlaceKeep : WipeOptions :=
  { injectProfile := false
    customProfile := none
    createCopy := false
    keepBackup := true
    secureDelete := false }

/-- Counterexample to Claim C5 as stated: with CreateCopy false and a
stale pre-existing .bak sibling whose content differs from the original,
WipeFile completes without error and reuses the existing .bak without any
byte copy or content-hash check (CreateBackup returns early when the .bak
already exists), so no verified backup copy of the original is created:
the .bak content still differs from the original content afterwards. -/
theorem C5_backup_counterexample :
    (WipeFile envC fs5 "f.jpg" (some optsInPlaceKeep)).2.2 = none ∧
    (WipeFile envC fs5 "f.jpg" (some optsInPlaceKeep)).2.1.backupPath = "f.jpg.bak" ∧
    (WipeFile envC fs5 "f.jpg" (some optsInPlaceKeep)).1 "f.jpg.bak" = some "BBBB" ∧
    fs5 "f.jpg" = some "AAAA" ∧
    ("BBBB" : String) ≠ "AAAA" :=
  ⟨rfl, rfl, rfl, rfl, by decide⟩

/-- Claim C5 amended: when CreateCopy is false, WipeFile always routes the
staging stage through CreateBackup regardless of KeepBackup and aborts
with an error when the backup step fails; CreateBackup performs the
verified byte copy (content equal to the original) exactly when no .bak
sibling exists, and reuses an existing .bak without copying. -/
theorem C5_backup_always_attempted (env : Env) (fs : Fs) (path : String)
    (opts : WipeOptions) (c : String) (report : AnalysisReport)
    (hcc : opts.createCopy = false)
    (hv : validatePath env fs path = true)
    (hfs : fs path = some c)
    (ha : analyze env fs path = .ok report)
    (hh : getHandlerOk report.format = true) :
    (fs (path ++ ".bak") = none →
      (env.copyOk path (path ++ ".bak") = true →
        CreateBackup env fs path =
          .ok (path ++ ".bak", fsUpdate fs (path ++ ".bak") c)) ∧
      (env.copyOk path (path ++ ".bak") = false →
        (WipeFile env fs path (some opts)).2.2 = some "failed to create backup")) ∧
    (∀ cb, fs (path ++ ".bak") = some cb →
      CreateBackup env fs path = .ok (path ++ ".bak", fs)) ∧
    (∀ bp fs2, CreateBackup env fs path = .ok (bp, fs2) →
      WipeFile env fs path (some opts) =
        wipeFinish env opts fs2
          { success := false, originalPath := path, outputPath := "",
            backupPath := bp, sensitiveData := report.sensitiveFields,
            wipeErrors := [], verification := none, injection := none }
          report.format path) := by
  refine ⟨?_, ?_, ?_⟩
  · intro hbak
    constructor
    · intro hcopy
      simp [CreateBackup, SafeCopy, hbak, hfs, hcopy]
    · intro hcopy
      have hcb : CreateBackup env fs path = .error "failed to create backup" := by
        simp [CreateBackup, SafeCopy, hbak, hfs, hcopy]
      simp [WipeFile, Option.getD, initWipeResult, hv, ha, hh, hcc, hcb]
  · intro cb hbak
    simp [CreateBackup, hbak]
  · intro bp fs2 hcb
    simp [WipeFile, Option.getD, initWipeResult, hv, ha, hh, hcc, hcb]

/-- Witness for C5 at concrete inputs: without a pre-existing .bak the
verified copy is performed, and with a pre-existing .bak the sibling is
reused without copying while WipeFile still routes through it. -/
theorem C5_backup_always_attempted_witness :
    CreateBackup envC fs6 "f.jpg" =
      .ok ("f.jpg" ++ ".bak", fsUpdate fs6 ("f.jpg" ++ ".bak") "AAAA") ∧
    CreateBackup envC fs5 "f.jpg" = .ok ("f.jpg" ++ ".bak", fs5) :=
  ⟨((C5_backup_always_attempted envC fs6 "f.jpg" optsInPlaceKeep "AAAA"
      ⟨[("author", MetaVal.str "anon")], [], "image"⟩
      rfl rfl rfl rfl rfl).1 rfl).1 rfl,
   (C5_backup_always_attempted envC fs5 "f.jpg" optsInPlaceKeep "AAAA"
      ⟨[("author", MetaVal.str "anon")], [], "image"⟩
      rfl rfl rfl rfl rfl).2.1 "BBBB" rfl⟩

/-- In-place options that drop the backup with secure deletion and skip
injection. -/
def optsInPlaceSecure : WipeOptions :=
  { injectProfile := false
    customProfile := none
    createCopy := false
    keepBackup := false
    secureDelete := true }

/-- Counterexample to Claim C6 as stated: in a run where the cleanup guard
holds and the secure disposal of the backup fails (the secure overwrite
oracle of envC always fails), the backup file is still present afterwards,
yet the BackupPath field of the result has been cleared: the code discards
the disposal error and clears BackupPath unconditionally inside the
branch, not only on success. -/
theorem C6_cleanup_counterexample :
    (WipeFile envC fs6 "f.jpg" (some optsInPlaceSecure)).2.2 = none ∧
    envC.secureOk "f.jpg.bak" = false ∧
    (WipeFile envC fs6 "f.jpg" (some optsInPlaceSecure)).1 "f.jpg.bak" = some "AAAA" ∧
    (WipeFile envC fs6 "f.jpg" (some optsInPlaceSecure)).2.1.backupPath = "" :=
  ⟨rfl, rfl, rfl, rfl⟩

/-- Claim C6 amended: the cleanup stage attempts disposal of the backup
(secure overwrite then delete when SecureDelete, plain delete otherwise)
exactly when CreateCopy is false, KeepBackup is false, BackupPath is
non-empty and WipeErrors is empty; when the guard holds, BackupPath is
cleared unconditionally, even when the disposal fails, because the code
discards the disposal error; when the guard fails, state and result are
untouched. -/
theorem C6_cleanup_guard (env : Env) (options : WipeOptions) (fs : Fs)
    (r : WipeResult) :
    ((!options.createCopy && !options.keepBackup && r.backupPath != "" &&
        r.wipeErrors.length == 0) = true →
      cleanupStage env options fs r =
        ((if options.secureDelete then
            match SecureOverwriteFile env fs r.backupPath with
            | .ok f => f
            | .error _ => fs
          else
            match RemoveFile fs r.backupPath with
            | .ok f => f
            | .error _ => fs),
         { r with backupPath := "" })) ∧
    ((!options.createCopy && !options.keepBackup && r.backupPath != "" &&
        r.wipeErrors.length == 0) = false →
      cleanupStage env options fs r = (fs, r)) := by
  constructor
  · intro h
    simp [cleanupStage, h]
  · intro h
    simp [cleanupStage, h]

/-- A result record with a recorded backup path and no wipe errors. -/
def resW : WipeResult :=
  { success := false
    originalPath := "f.jpg"
    outputPath := ""
    backupPath := "f.jpg.bak"
    sensitiveData := []
    wipeErrors := []
    verification := none
    injection := none }

/-- Witness for C6 at concrete inputs: the guard-true branch clears
BackupPath and the guard-false branch leaves everything untouched. -/
theorem C6_cleanup_guard_witness :
    (cleanupStage envC optsInPlaceSecure fs5 resW).2.backupPath = "" ∧
    cleanupStage envC optsCopy fs5 resW = (fs5, resW) :=
  ⟨by rw [(C6_cleanup_guard envC optsInPlaceSecure fs5 resW).1 rfl],
   (C6_cleanup_guard envC optsCopy fs5 resW).2 rfl⟩

/-- A file system holding one file for the injection counterexample. -/
def fs7 : Fs :=
  fun p => if p = "f.jpg" then some "CCCC" else none

/-- A successful metadata injection updates the given path with the
content the handler produced for the profile it was handed. -/
theorem injectMetadataAt_ok_shape (env : Env) (format : String) (fs : Fs)
    (path : String) (profile : List (String × String)) (fs2 : Fs)
    (h : injectMetadataAt env format fs path profile = .ok fs2) :
    ∃ c c2, fs path = some c ∧ env.injectMetaC format profile c = .ok c2 ∧
      fs2 = fsUpdate fs path c2 := by
  unfold injectMetadataAt at h
  split at h
  · cases h
  · rename_i c hc
    split at h
    · rename_i c2 hc2
      simp only [Except.ok.injEq] at h
      exact ⟨c, c2, hc, hc2, h.symm⟩
    · cases h

/-- Claim C7 amended: the Profile field of the ProfileInjectionResult is
the resolved profile before dynamic-placeholder substitution (the code
stores the map prior to processDynamicFields and never reassigns it),
while the injection itself and the re-verification use the
post-substitution map. -/
theorem C7_injectProfile_profile_field (env : Env) (fs : Fs) (path : String)
    (prof : List (String × String)) :
    (InjectProfile env fs path (some prof)).2.1.profile = prof ∧
    ((InjectProfile env fs path (some prof)).2.2 = none →
      ∃ format c c2, detectFile env fs path = .ok format ∧ fs path = some c ∧
        env.injectMetaC format (processDynamicFields env prof) c = .ok c2 ∧
        (InjectProfile env fs path (some prof)).1 = fsUpdate fs path c2) := by
  constructor
  · simp only [InjectProfile]
    repeat'
      first
        | rfl
        | split
  · intro h
    cases hdet : detectFile env fs path with
    | error e =>
      simp [InjectProfile, hdet] at h
    | ok format =>
      cases hh : getHandlerOk format with
      | false =>
        simp [InjectProfile, hdet, hh] at h
      | true =>
        cases hinj : injectMetadataAt env format fs path
            (processDynamicFields env prof) with
        | error e =>
          simp [InjectProfile, hdet, hh, hinj] at h
        | ok fs2 =>
          obtain ⟨c, c2, hc, hc2, hfs2⟩ := injectMetadataAt_ok_shape _ _ _ _ _ _ hinj
          refine ⟨format, c, c2, rfl, hc, hc2, ?_⟩
          simp [InjectProfile, hdet, hh, hinj, hfs2]

/-- Counterexample to Claim C7 as stated: a successful InjectProfile run
whose custom profile holds the literal now placeholder returns a Profile
field still containing the placeholder, not the substituted date that was
injected and verified against. -/
theorem C7_injectProfile_counterexample :
    (InjectProfile env7 fs7 "f.jpg"
        (some [("created", "\x7b\x7bnow\x7d\x7d")])).2.2 = none ∧
    (InjectProfile env7 fs7 "f.jpg"
        (some [("created", "\x7b\x7bnow\x7d\x7d")])).2.1.success = true ∧
    (InjectProfile env7 fs7 "f.jpg"
        (some [("created", "\x7b\x7bnow\x7d\x7d")])).2.1.profile =
      [("created", "\x7b\x7bnow\x7d\x7d")] ∧
    processDynamicFields env7 [("created", "\x7b\x7bnow\x7d\x7d")] =
      [("created", "2026-10-11")] ∧
    ("\x7b\x7bnow\x7d\x7d" : String) ≠ "2026-10-11" :=
  ⟨rfl, rfl, rfl, rfl, by decide⟩

/-- Witness for C7 at a concrete run. -/
theorem C7_injectProfile_profile_field_witness :
    (InjectProfile env7 fs7 "f.jpg"
        (some [("created", "\x7b\x7bnow\x7d\x7d")])).2.1.profile =
      [("created", "\x7b\x7bnow\x7d\x7d")] ∧
    (∃ format c c2, detectFile env7 fs7 "f.jpg" = .ok format ∧
      fs7 "f.jpg" = some c ∧
      env7.injectMetaC format
        (processDynamicFields env7 [("created", "\x7b\x7bnow\x7d\x7d")]) c = .ok c2 ∧
      (InjectProfile env7 fs7 "f.jpg"
        (some [("created", "\x7b\x7bnow\x7d\x7d")])).1 = fsUpdate fs7 "f.jpg" c2) :=
  ⟨(C7_injectProfile_profile_field env7 fs7 "f.jpg"
      [("created", "\x7b\x7bnow\x7d\x7d")]).1,
   (C7_injectProfile_profile_field env7 fs7 "f.jpg"
      [("created", "\x7b\x7bnow\x7d\x7d")]).2 rfl⟩

/-- Claim C8: VerifyFile fails fast with an error, not a false result,
when the path does not exist; when the path exists but the handler
integrity check fails (after successful detection and handler resolution),
it returns without error a result with FileIntact false and Success false,
skipping metadata re-analysis entirely so RemainingFields and
MissingFields stay unset. -/
theorem C8_verifyFile_error_paths (env : Env) (fs : Fs) (path : String)
    (expectedProfile : Option (List (String × String))) :
    (fs path = none →
      VerifyFile env fs path expectedProfile =
        (initVerificationResult, some "file not found")) ∧
    (∀ c format, fs path = some c →
      detectFile env fs path = .ok format →
      getHandlerOk format = true →
      verifyIntegrityAt env format fs path = false →
      VerifyFile env fs path expectedProfile =
        ({ initVerificationResult with
             validationErrors := ["File integrity check failed"] }, none)) := by
  constructor
  · intro h
    simp [VerifyFile, h]
  · intro c format hfs hdet hh hint
    simp [VerifyFile, initVerificationResult, hfs, hdet, hh, hint]

/-- Witness for C8 at concrete inputs: a missing path errors out, and a
failing integrity check short-circuits with FileIntact false. -/
theorem C8_verifyFile_error_paths_witness :
    VerifyFile env8 fsW "missing.jpg" none =
      (initVerificationResult, some "file not found") ∧
    VerifyFile env8 fsW "a.jpg" none =
      ({ initVerificationResult with
           validationErrors := ["File integrity check failed"] }, none) :=
  ⟨(C8_verifyFile_error_paths env8 fsW "missing.jpg" none).1 rfl,
   (C8_verifyFile_error_paths env8 fsW "a.jpg" none).2 "CONTENT" "image"
     rfl rfl rfl rfl⟩

/-- Claim C9: when VerifyFile with a nil expected profile reaches the
profile-check stage (the path exists, detection and handler resolution
succeed, the integrity check passes and re-analysis succeeds),
ProfileInjected is true, MissingFields stays unset, no error is returned,
and Success is determined solely by FileIntact and MetadataRemoved. -/
theorem C9_verifyFile_nil_profile (env : Env) (fs : Fs) (path : String)
    (c : String) (format : String) (report : AnalysisReport)
    (hfs : fs path = some c)
    (hdet : detectFile env fs path = .ok format)
    (hh : getHandlerOk format = true)
    (hint : verifyIntegrityAt env format fs path = true)
    (ha : analyze env fs path = .ok report) :
    (VerifyFile env fs path none).1.profileInjected = true ∧
    (VerifyFile env fs path none).1.missingFields = none ∧
    (VerifyFile env fs path none).2 = none ∧
    (VerifyFile env fs path none).1.success =
      ((VerifyFile env fs path none).1.fileIntact &&
       (VerifyFile env fs path none).1.metadataRemoved) := by
  cases hmd : report.sensitiveFields.length == 0 with
  | false =>
    simp [VerifyFile, initVerificationResult, hfs, hdet, hh, hint, ha, hmd]
  | true =>
    simp [VerifyFile, initVerificationResult, hfs, hdet, hh, hint, ha, hmd]

/-- Witness for C9 at a concrete run. -/
theorem C9_verifyFile_nil_profile_witness :
    (VerifyFile envC fsW "a.jpg" none).1.profileInjected = true ∧
    (VerifyFile envC fsW "a.jpg" none).1.missingFields = none ∧
    (VerifyFile envC fsW "a.jpg" none).2 = none ∧
    (VerifyFile envC fsW "a.jpg" none).1.success =
      ((VerifyFile envC fsW "a.jpg" none).1.fileIntact &&
       (VerifyFile envC fsW "a.jpg" none).1.metadataRemoved) :=
  C9_verifyFile_nil_profile envC fsW "a.jpg" "CONTENT" "image"
    ⟨[("author", MetaVal.str "anon")], [], "image"⟩ rfl rfl rfl rfl rfl

end Caligra
